import Mathlib

/-!
Shallow embedding of the RCV tabulation engine of rcv.report
(`tabulateRCV` and `generateCandidateVoteData` in the tabulation script),
together with theorems settling the specification claims about it.

Candidates are identified by strings (JavaScript object keys / Set
elements).  The JavaScript `Set` built from the candidate list keeps the
first occurrence of each candidate in insertion order, which is exactly
`List.eraseDups`.  The per-round `voteCounts` object is modelled as a
function `String → Nat` whose meaningful domain is the active-candidate
list; the recorded `tally` is the association list of the active
candidates (in order) with their counts, matching the object's key order.
-/

namespace RcvReport

/-- A ballot as produced by `getBallotsForContest`: an identifier and the
ordered list of ranked candidate choices. -/
structure Ballot where
  id : String
  choices : List String
deriving Repr, DecidableEq

/-- One recorded round (the object pushed onto `rounds`): round number,
tally (candidate, votes) in active order, the Sankey `allocations` array
(as (allocatee, votes) pairs, with the `"X"` sentinel for exhausted
ballots), the candidates eliminated at the end of the round, the number of
exhausted ballots, and the winner (non-null only on a concluding round). -/
structure Round where
  round : Nat
  tally : List (String × Nat)
  allocations : List (String × Nat)
  eliminated : List String
  exhausted : Nat
  winner : Option String
deriving Repr, DecidableEq

/-- The object returned by `tabulateRCV`. -/
structure TabulationResult where
  rounds : List Round
  winner : Option String
  totalRounds : Nat
  totalBallots : Nat
  finalTally : List (String × Nat)
deriving Repr, DecidableEq

/-- The inner ballot scan (`for choice of ballot.choices ... break`): the
first choice on the ballot that is in `active`. -/
def firstActiveChoice (active : List String) (ballot : Ballot) : Option String :=
  ballot.choices.find? (fun choice => active.contains choice)

/-- The body of the counting loop for one ballot, threading the mutable
`voteCounts` object (as a function) and the `exhaustedCount` counter: a
ballot whose first active choice is `choice` increments
`voteCounts[choice]` (`voted = true`), a ballot with no active choice
increments `exhaustedCount`. -/
def countStep (active : List String) (acc : (String → Nat) × Nat) (ballot : Ballot) :
    (String → Nat) × Nat :=
  match firstActiveChoice active ballot with
  | some choice => (fun c => if c = choice then acc.1 c + 1 else acc.1 c, acc.2)
  | none => (acc.1, acc.2 + 1)

/-- The per-round counting loop over `ballots` (`voteCounts` starts with
every count 0 and `exhaustedCount` starts at 0). -/
def countVotes (ballots : List Ballot) (active : List String) : (String → Nat) × Nat :=
  ballots.foldl (countStep active) (fun _ => 0, 0)

/-- `voteCounts` of the round, as a function. -/
def voteCounts (ballots : List Ballot) (active : List String) : String → Nat :=
  (countVotes ballots active).1

/-- `exhaustedCount` of the round. -/
def exhaustedCount (ballots : List Ballot) (active : List String) : Nat :=
  (countVotes ballots active).2

/-- `Object.values(voteCounts)` in key (= active) order. -/
def voteValues (ballots : List Ballot) (active : List String) : List Nat :=
  active.map (voteCounts ballots active)

/-- `const totalVotes = Object.values(voteCounts).reduce(...)`. -/
def totalVotes (ballots : List Ballot) (active : List String) : Nat :=
  (voteValues ballots active).sum

/-- `const majorityThreshold = Math.floor(totalVotes / 2) + 1`. -/
def majorityThreshold (ballots : List Ballot) (active : List String) : Nat :=
  totalVotes ballots active / 2 + 1

/-- `const maxVotes = Math.max(...Object.values(voteCounts))` (the default
`0` is never used inside the loop, where `active` is non-empty). -/
def maxVotes (ballots : List Ballot) (active : List String) : Nat :=
  (voteValues ballots active).max?.getD 0

/-- `const winner = Object.keys(voteCounts).find(c => voteCounts[c] === maxVotes)`. -/
def roundWinner (ballots : List Ballot) (active : List String) : Option String :=
  active.find? (fun c => voteCounts ballots active c == maxVotes ballots active)

/-- `const hasWinner = maxVotes >= majorityThreshold || activeCandidates.size <= 1`. -/
def hasWinner (ballots : List Ballot) (active : List String) : Bool :=
  majorityThreshold ballots active ≤ maxVotes ballots active || active.length ≤ 1

/-- `const minVotes = Math.min(...Object.values(voteCounts))`. -/
def minVotes (ballots : List Ballot) (active : List String) : Nat :=
  (voteValues ballots active).min?.getD 0

/-- `const toEliminate = Object.keys(voteCounts).filter(c => voteCounts[c] === minVotes)`. -/
def toEliminate (ballots : List Ballot) (active : List String) : List String :=
  active.filter (fun c => voteCounts ballots active c == minVotes ballots active)

/-- The effect of `for (let candidate of toEliminate) activeCandidates.delete(candidate)`
on the active set. -/
def nextActive (ballots : List Ballot) (active : List String) : List String :=
  active.filter (fun c => !(toEliminate ballots active).contains c)

/-- The recorded `tally: { ...voteCounts }` as an association list in key
order. -/
def tallyList (ballots : List Ballot) (active : List String) : List (String × Nat) :=
  active.map (fun c => (c, voteCounts ballots active c))

/-- The `allocations` array: one `{allocatee, votes}` entry per active
candidate plus, when `exhaustedCount > 0`, the `"X"` sentinel entry. -/
def allocations (ballots : List Ballot) (active : List String) : List (String × Nat) :=
  tallyList ballots active ++
    (if 0 < exhaustedCount ballots active then [("X", exhaustedCount ballots active)] else [])

/-- The round object pushed onto `rounds` for the current iteration. -/
def mkRound (ballots : List Ballot) (active : List String) (roundNumber : Nat) : Round :=
  { round := roundNumber
    tally := tallyList ballots active
    allocations := allocations ballots active
    eliminated := if hasWinner ballots active then [] else toEliminate ballots active
    exhausted := exhaustedCount ballots active
    winner := if hasWinner ballots active then roundWinner ballots active else none }

/-- The code after the `while` loop ("Fallback if we exit the loop"):
`Array.from(activeCandidates)[0]` is `active.head?` (`none` models the
JavaScript `undefined`), and `finalTally` is the one-entry object
`{ [remainingCandidate]: ballots.length }`.  When `remainingCandidate` is
`undefined` (no candidate left), the JavaScript computed key coerces to
the string `"undefined"`, so the object is `{"undefined": ballots.length}`
— still a one-entry object. -/
def exitLoop (ballots : List Ballot) (active : List String) (rounds : List Round)
    (roundNumber : Nat) : TabulationResult :=
  { rounds := rounds
    winner := active.head?
    totalRounds := roundNumber - 1
    totalBallots := ballots.length
    finalTally :=
      match active.head? with
      | some c => [(c, ballots.length)]
      | none => [("undefined", ballots.length)] }

/-- The `while (activeCandidates.size > 1)` loop.  `fuel` is only a
structural termination bound: each non-concluding iteration removes at
least one candidate from `active`, so with `fuel ≥ active.length` the
fuel never runs out before the loop guard fails (and at `fuel = 0` the
bound forces `active = []`, where the guard fails anyway).  `tabulateRCV`
supplies `fuel = active.length`. -/
def tabulateLoop (ballots : List Ballot) :
    Nat → List String → List Round → Nat → TabulationResult
  | fuel + 1, active, rounds, roundNumber =>
    if 1 < active.length then
      if hasWinner ballots active then
        { rounds := rounds ++ [mkRound ballots active roundNumber]
          winner := roundWinner ballots active
          totalRounds := roundNumber
          totalBallots := ballots.length
          finalTally := tallyList ballots active }
      else
        tabulateLoop ballots fuel (nextActive ballots active)
          (rounds ++ [mkRound ballots active roundNumber])
          (roundNumber + 1)
    else
      exitLoop ballots active rounds roundNumber
  | 0, active, rounds, roundNumber => exitLoop ballots active rounds roundNumber

/-- `tabulateRCV(ballots, candidates)`: `new Set(candidates)` keeps the
first occurrence of each candidate in order (`List.eraseDups`), then the
elimination loop runs starting from round 1 with no recorded rounds. -/
def tabulateRCV (ballots : List Ballot) (candidates : List String) : TabulationResult :=
  tabulateLoop ballots candidates.eraseDups.length candidates.eraseDups [] 1

/-- One entry of the array built by `generateCandidateVoteData`. -/
structure CandidateVote where
  candidate : String
  name : String
  firstRoundVotes : Nat
  transferVotes : Nat
  votes : Nat
  roundEliminated : Option Nat
  winner : Bool
deriving Repr, DecidableEq

/-- The loop body of `generateCandidateVoteData` for one `candidateName`:
the first-round votes (`rounds[0]?.tally[name] || 0`), the clamped
transfer votes (`Math.max(0, finalVotes - firstRoundVotes)`, which is
`Nat` subtraction), the 1-based first round whose `eliminated` list
contains the candidate, and the winner flag
(`candidateName === finalRound?.winner`). -/
def candidateVoteEntry (rounds : List Round) (candidateName : String) : CandidateVote :=
  let firstRoundVotes := ((rounds.head?).bind (fun r => r.tally.lookup candidateName)).getD 0
  let finalRound := rounds.getLast?
  let finalVotes := (finalRound.bind (fun r => r.tally.lookup candidateName)).getD 0
  let transferVotes := finalVotes - firstRoundVotes
  let roundEliminated :=
    (rounds.findIdx? (fun r => r.eliminated.contains candidateName)).map (· + 1)
  { candidate := candidateName
    name := candidateName
    firstRoundVotes := firstRoundVotes
    transferVotes := transferVotes
    votes := firstRoundVotes
    roundEliminated := roundEliminated
    winner := (finalRound.bind Round.winner) == some candidateName }

/-- `generateCandidateVoteData(rounds, candidates)`: one entry per
candidate, stably sorted by `firstRoundVotes + transferVotes` descending
(the JavaScript comparator `(a, b) => (b.f + b.t) - (a.f + a.t)` under a
stable `Array.sort`; modelled by the stable `insertionSort`). -/
def generateCandidateVoteData (rounds : List Round) (candidates : List String) :
    List CandidateVote :=
  (candidates.map (candidateVoteEntry rounds)).insertionSort
    (fun a b => b.firstRoundVotes + b.transferVotes ≤ a.firstRoundVotes + a.transferVotes)

/-! ## Vocabulary on recorded rounds, used to state the claims. -/

/-- The candidates a recorded round tallies (its active set). -/
def Round.tallyKeys (r : Round) : List String := r.tally.map Prod.fst

/-- The tallied vote counts of a recorded round, in key order. -/
def Round.tallyValues (r : Round) : List Nat := r.tally.map Prod.snd

/-- Total active votes of a recorded round. -/
def Round.tallySum (r : Round) : Nat := r.tallyValues.sum

/-- Maximum tally of a recorded round. -/
def Round.tallyMax (r : Round) : Nat := r.tallyValues.max?.getD 0

/-- Minimum tally of a recorded round. -/
def Round.tallyMin (r : Round) : Nat := r.tallyValues.min?.getD 0

/-- The win condition of the spec, read off a recorded round: the maximum
tally reaches `floor(totalActiveVotes / 2) + 1`, or at most one candidate
is active. -/
def Round.concludes (r : Round) : Prop :=
  r.tallySum / 2 + 1 ≤ r.tallyMax ∨ r.tally.length ≤ 1

instance (r : Round) : Decidable r.concludes := by
  unfold Round.concludes
  infer_instance

/-! ## Lemmas about the ballot scan `firstActiveChoice` -/

theorem firstActiveChoice_mem {active : List String} {ballot : Ballot} {c : String}
    (h : firstActiveChoice active ballot = some c) : c ∈ active := by
  have := List.find?_some h
  simpa using this

theorem firstActiveChoice_eq_none_iff (active : List String) (ballot : Ballot) :
    firstActiveChoice active ballot = none ↔ ∀ x ∈ ballot.choices, x ∉ active := by
  unfold firstActiveChoice
  rw [List.find?_eq_none]
  simp

theorem firstActiveChoice_eq_some_iff (active : List String) (ballot : Ballot) (c : String) :
    firstActiveChoice active ballot = some c ↔
      c ∈ active ∧ ∃ pre post, ballot.choices = pre ++ c :: post ∧ ∀ x ∈ pre, x ∉ active := by
  unfold firstActiveChoice
  induction ballot.choices with
  | nil => simp
  | cons x xs ih =>
    rw [List.find?_cons]
    by_cases hx : x ∈ active
    · have hcx : active.contains x = true := by simpa using hx
      simp only [hcx]
      constructor
      · rintro h
        cases h
        exact ⟨hx, [], xs, rfl, by simp⟩
      · rintro ⟨hc, pre, post, hdec, hpre⟩
        cases pre with
        | nil =>
          simp only [List.nil_append, List.cons.injEq] at hdec
          simp [hdec.1]
        | cons y pre =>
          simp only [List.cons_append, List.cons.injEq] at hdec
          exact absurd (hdec.1 ▸ hx) (hpre y (by simp))
    · have hcx : active.contains x = false := by simpa using hx
      simp only [hcx]
      rw [ih]
      constructor
      · rintro ⟨hc, pre, post, hdec, hpre⟩
        refine ⟨hc, x :: pre, post, by simp [hdec], ?_⟩
        intro y hy
        rcases List.mem_cons.mp hy with rfl | hy
        · exact hx
        · exact hpre y hy
      · rintro ⟨hc, pre, post, hdec, hpre⟩
        cases pre with
        | nil =>
          simp only [List.nil_append, List.cons.injEq] at hdec
          exact absurd (hdec.1 ▸ hc) hx
        | cons y pre =>
          simp only [List.cons_append, List.cons.injEq] at hdec
          exact ⟨hc, pre, post, hdec.2, fun z hz => hpre z (by simp [hz])⟩

/-! ## Characterization of the counting fold -/

theorem countStep_some {active : List String} {ballot : Ballot} {choice : String}
    (h : firstActiveChoice active ballot = some choice) (f0 : String → Nat) (e0 : Nat) :
    countStep active (f0, e0) ballot = (fun c => if c = choice then f0 c + 1 else f0 c, e0) := by
  unfold countStep
  rw [h]

theorem countStep_none {active : List String} {ballot : Ballot}
    (h : firstActiveChoice active ballot = none) (f0 : String → Nat) (e0 : Nat) :
    countStep active (f0, e0) ballot = (f0, e0 + 1) := by
  unfold countStep
  rw [h]

theorem foldl_countStep_fst (active : List String) :
    ∀ (ballots : List Ballot) (f0 : String → Nat) (e0 : Nat) (c : String),
      (ballots.foldl (countStep active) (f0, e0)).1 c =
        f0 c + (ballots.filter (fun x => firstActiveChoice active x == some c)).length := by
  intro ballots
  induction ballots with
  | nil => simp
  | cons ballot bs ih =>
    intro f0 e0 c
    rw [List.foldl_cons]
    cases h : firstActiveChoice active ballot with
    | some choice =>
      rw [countStep_some h, ih]
      by_cases hc : c = choice
      · subst hc
        simp [List.filter_cons, h, Nat.add_comm, Nat.add_assoc, Nat.add_left_comm]
      · have hne : (firstActiveChoice active ballot == some c) = false := by
          simp [h]
          exact Ne.symm hc
        simp [List.filter_cons, hne, hc]
    | none =>
      rw [countStep_none h, ih]
      have hne : (firstActiveChoice active ballot == some c) = false := by simp [h]
      simp [List.filter_cons, hne]

theorem foldl_countStep_snd (active : List String) :
    ∀ (ballots : List Ballot) (f0 : String → Nat) (e0 : Nat),
      (ballots.foldl (countStep active) (f0, e0)).2 =
        e0 + (ballots.filter (fun x => (firstActiveChoice active x).isNone)).length := by
  intro ballots
  induction ballots with
  | nil => simp
  | cons ballot bs ih =>
    intro f0 e0
    rw [List.foldl_cons]
    cases h : firstActiveChoice active ballot with
    | some choice =>
      rw [countStep_some h, ih]
      simp [List.filter_cons, h]
    | none =>
      rw [countStep_none h, ih]
      simp [List.filter_cons, h, Nat.add_comm, Nat.add_assoc, Nat.add_left_comm]

theorem voteCounts_eq_filter_length (ballots : List Ballot) (active : List String) (c : String) :
    voteCounts ballots active c =
      (ballots.filter (fun x => firstActiveChoice active x == some c)).length := by
  unfold voteCounts countVotes
  rw [foldl_countStep_fst]
  simp

theorem exhaustedCount_eq_filter_length (ballots : List Ballot) (active : List String) :
    exhaustedCount ballots active =
      (ballots.filter (fun x => (firstActiveChoice active x).isNone)).length := by
  unfold exhaustedCount countVotes
  rw [foldl_countStep_snd]
  simp

/-! ## Conservation: every ballot is counted once or exhausted -/

theorem sum_map_update (l : List String) (hnd : l.Nodup) {c0 : String} (hc : c0 ∈ l)
    (f : String → Nat) :
    (l.map (fun c => if c = c0 then f c + 1 else f c)).sum = (l.map f).sum + 1 := by
  induction l with
  | nil => cases hc
  | cons a t ih =>
    have ha : a ∉ t := (List.nodup_cons.mp hnd).1
    have hndt : t.Nodup := (List.nodup_cons.mp hnd).2
    rcases List.mem_cons.mp hc with h0 | hct
    · subst h0
      have htail : t.map (fun c => if c = c0 then f c + 1 else f c) = t.map f := by
        apply List.map_congr_left
        intro c hcmem
        have hne : c ≠ c0 := fun h => ha (h ▸ hcmem)
        simp [hne]
      simp [htail]
      omega
    · have hac : a ≠ c0 := fun h => ha (h ▸ hct)
      simp only [List.map_cons, List.sum_cons, if_neg hac, ih hndt hct]
      omega

theorem conservation_foldl (active : List String) (hnd : active.Nodup) :
    ∀ (ballots : List Ballot) (f0 : String → Nat) (e0 : Nat),
      (active.map (ballots.foldl (countStep active) (f0, e0)).1).sum
          + (ballots.foldl (countStep active) (f0, e0)).2
        = (active.map f0).sum + e0 + ballots.length := by
  intro ballots
  induction ballots with
  | nil => simp
  | cons ballot bs ih =>
    intro f0 e0
    rw [List.foldl_cons]
    cases h : firstActiveChoice active ballot with
    | some choice =>
      rw [countStep_some h, ih]
      rw [sum_map_update active hnd (firstActiveChoice_mem h)]
      simp
      omega
    | none =>
      rw [countStep_none h, ih]
      simp
      omega

theorem totalVotes_add_exhaustedCount (ballots : List Ballot) (active : List String)
    (hnd : active.Nodup) :
    totalVotes ballots active + exhaustedCount ballots active = ballots.length := by
  unfold totalVotes voteValues voteCounts exhaustedCount countVotes
  have := conservation_foldl active hnd ballots (fun _ => 0) 0
  simpa using this

/-! ## The extreme tallies are attained -/

theorem min?_isSome_of_ne_nil {l : List Nat} (h : l ≠ []) : ∃ m, l.min? = some m := by
  cases l with
  | nil => cases h rfl
  | cons x xs => exact ⟨_, List.min?_cons⟩

theorem max?_isSome_of_ne_nil {l : List Nat} (h : l ≠ []) : ∃ m, l.max? = some m := by
  cases l with
  | nil => cases h rfl
  | cons x xs => exact ⟨_, List.max?_cons⟩

theorem exists_voteCounts_eq_minVotes (ballots : List Ballot) {active : List String}
    (h : active ≠ []) :
    ∃ c ∈ active, voteCounts ballots active c = minVotes ballots active := by
  have hne : voteValues ballots active ≠ [] := by
    unfold voteValues
    simpa using h
  rcases min?_isSome_of_ne_nil hne with ⟨m, hm⟩
  have hmem : m ∈ voteValues ballots active := List.min?_mem (fun a b => min_choice a b) hm
  unfold voteValues at hmem
  rcases List.mem_map.mp hmem with ⟨c, hca, hcm⟩
  refine ⟨c, hca, ?_⟩
  unfold minVotes
  rw [hm]
  simpa using hcm

theorem exists_voteCounts_eq_maxVotes (ballots : List Ballot) {active : List String}
    (h : active ≠ []) :
    ∃ c ∈ active, voteCounts ballots active c = maxVotes ballots active := by
  have hne : voteValues ballots active ≠ [] := by
    unfold voteValues
    simpa using h
  rcases max?_isSome_of_ne_nil hne with ⟨m, hm⟩
  have hmem : m ∈ voteValues ballots active := List.max?_mem (fun a b => max_choice a b) hm
  unfold voteValues at hmem
  rcases List.mem_map.mp hmem with ⟨c, hca, hcm⟩
  refine ⟨c, hca, ?_⟩
  unfold maxVotes
  rw [hm]
  simpa using hcm

theorem roundWinner_isSome (ballots : List Ballot) {active : List String} (h : active ≠ []) :
    (roundWinner ballots active).isSome := by
  unfold roundWinner
  rw [List.find?_isSome]
  rcases exists_voteCounts_eq_maxVotes ballots h with ⟨c, hca, hc⟩
  exact ⟨c, hca, by simp [hc]⟩

/-! ## `List.eraseDups` (the `new Set(candidates)` model) -/

theorem mem_eraseDupsLoop {α} [BEq α] [LawfulBEq α] :
    ∀ (as bs : List α) (x : α), x ∈ List.eraseDups.loop as bs ↔ x ∈ as ∨ x ∈ bs := by
  intro as
  induction as with
  | nil =>
    intro bs x
    simp [List.eraseDups.loop]
  | cons a t ih =>
    intro bs x
    cases helem : bs.elem a with
    | true =>
      have hmem : a ∈ bs := by simpa using helem
      simp only [List.eraseDups.loop, helem, ih, List.mem_cons]
      constructor
      · tauto
      · rintro ((heq | h) | h)
        · exact Or.inr (heq ▸ hmem)
        · exact Or.inl h
        · exact Or.inr h
    | false =>
      simp only [List.eraseDups.loop, helem, ih, List.mem_cons]
      tauto

theorem nodup_eraseDupsLoop {α} [BEq α] [LawfulBEq α] :
    ∀ (as bs : List α), bs.Nodup → (List.eraseDups.loop as bs).Nodup := by
  intro as
  induction as with
  | nil =>
    intro bs hbs
    simpa [List.eraseDups.loop] using hbs
  | cons a t ih =>
    intro bs hbs
    cases helem : bs.elem a with
    | true =>
      simp only [List.eraseDups.loop, helem]
      exact ih bs hbs
    | false =>
      have hnotmem : a ∉ bs := by simpa using helem
      simp only [List.eraseDups.loop, helem]
      exact ih (a :: bs) (List.nodup_cons.mpr ⟨hnotmem, hbs⟩)

theorem length_eraseDupsLoop {α} [BEq α] [LawfulBEq α] :
    ∀ (as bs : List α), (List.eraseDups.loop as bs).length ≤ as.length + bs.length := by
  intro as
  induction as with
  | nil =>
    intro bs
    simp [List.eraseDups.loop]
  | cons a t ih =>
    intro bs
    cases helem : bs.elem a with
    | true =>
      simp only [List.eraseDups.loop, helem]
      calc (List.eraseDups.loop t bs).length ≤ t.length + bs.length := ih bs
        _ ≤ (a :: t).length + bs.length := by simp
    | false =>
      simp only [List.eraseDups.loop, helem]
      calc (List.eraseDups.loop t (a :: bs)).length ≤ t.length + (a :: bs).length := ih (a :: bs)
        _ = (a :: t).length + bs.length := by simp; omega

theorem nodup_eraseDups {α} [BEq α] [LawfulBEq α] (l : List α) : l.eraseDups.Nodup :=
  nodup_eraseDupsLoop l [] List.nodup_nil

theorem mem_eraseDups_iff {α} [BEq α] [LawfulBEq α] (l : List α) (x : α) :
    x ∈ l.eraseDups ↔ x ∈ l := by
  unfold List.eraseDups
  rw [mem_eraseDupsLoop]
  simp

theorem length_eraseDups_le {α} [BEq α] [LawfulBEq α] (l : List α) :
    l.eraseDups.length ≤ l.length := by
  have := length_eraseDupsLoop l ([] : List α)
  simpa using this

/-! ## Elimination and the next active set -/

theorem mem_toEliminate_iff (ballots : List Ballot) (active : List String) (c : String) :
    c ∈ toEliminate ballots active ↔
      c ∈ active ∧ voteCounts ballots active c = minVotes ballots active := by
  unfold toEliminate
  rw [List.mem_filter]
  simp

theorem mem_nextActive_iff (ballots : List Ballot) (active : List String) (c : String) :
    c ∈ nextActive ballots active ↔ c ∈ active ∧ c ∉ toEliminate ballots active := by
  unfold nextActive
  rw [List.mem_filter]
  simp

theorem nextActive_subset (ballots : List Ballot) (active : List String) :
    nextActive ballots active ⊆ active := by
  intro c hc
  exact ((mem_nextActive_iff ballots active c).mp hc).1

theorem nextActive_nodup (ballots : List Ballot) {active : List String} (h : active.Nodup) :
    (nextActive ballots active).Nodup :=
  h.filter _

theorem nextActive_length_lt (ballots : List Ballot) {active : List String} (h : active ≠ []) :
    (nextActive ballots active).length < active.length := by
  rcases exists_voteCounts_eq_minVotes ballots h with ⟨c, hca, hc⟩
  have htoE : c ∈ toEliminate ballots active :=
    (mem_toEliminate_iff ballots active c).mpr ⟨hca, hc⟩
  unfold nextActive
  rw [List.length_filter_lt_length_iff_exists]
  exact ⟨c, hca, by simp [htoE]⟩

theorem toEliminate_disjoint_nextActive (ballots : List Ballot) (active : List String)
    {c : String} (hc : c ∈ toEliminate ballots active) : c ∉ nextActive ballots active := by
  intro hmem
  exact ((mem_nextActive_iff ballots active c).mp hmem).2 hc

/-! ## Bridge lemmas: the recorded round versus the per-round data -/

theorem tallyList_keys (ballots : List Ballot) (active : List String) :
    (tallyList ballots active).map Prod.fst = active := by
  unfold tallyList
  rw [List.map_map]
  exact List.map_id' active

theorem tallyList_values (ballots : List Ballot) (active : List String) :
    (tallyList ballots active).map Prod.snd = voteValues ballots active := by
  unfold tallyList voteValues
  rw [List.map_map]
  rfl

theorem mem_tallyList_iff (ballots : List Ballot) (active : List String) (c : String) (v : Nat) :
    (c, v) ∈ tallyList ballots active ↔ c ∈ active ∧ v = voteCounts ballots active c := by
  unfold tallyList
  rw [List.mem_map]
  constructor
  · rintro ⟨x, hx, hxe⟩
    rw [Prod.mk.injEq] at hxe
    obtain ⟨rfl, rfl⟩ := hxe
    exact ⟨hx, rfl⟩
  · rintro ⟨hc, rfl⟩
    exact ⟨c, hc, rfl⟩

theorem mkRound_tallyKeys (ballots : List Ballot) (active : List String) (k : Nat) :
    (mkRound ballots active k).tallyKeys = active := by
  unfold mkRound Round.tallyKeys
  exact tallyList_keys ballots active

theorem mkRound_tallyValues (ballots : List Ballot) (active : List String) (k : Nat) :
    (mkRound ballots active k).tallyValues = voteValues ballots active := by
  unfold mkRound Round.tallyValues
  exact tallyList_values ballots active

theorem mkRound_tallySum (ballots : List Ballot) (active : List String) (k : Nat) :
    (mkRound ballots active k).tallySum = totalVotes ballots active := by
  unfold Round.tallySum totalVotes
  rw [mkRound_tallyValues]

theorem mkRound_tallyMax (ballots : List Ballot) (active : List String) (k : Nat) :
    (mkRound ballots active k).tallyMax = maxVotes ballots active := by
  unfold Round.tallyMax maxVotes
  rw [mkRound_tallyValues]

theorem mkRound_tallyMin (ballots : List Ballot) (active : List String) (k : Nat) :
    (mkRound ballots active k).tallyMin = minVotes ballots active := by
  unfold Round.tallyMin minVotes
  rw [mkRound_tallyValues]

theorem mkRound_tally_length (ballots : List Ballot) (active : List String) (k : Nat) :
    (mkRound ballots active k).tally.length = active.length := by
  have := congrArg List.length (mkRound_tallyKeys ballots active k)
  simpa [Round.tallyKeys] using this

theorem mkRound_concludes_iff (ballots : List Ballot) (active : List String) (k : Nat) :
    (mkRound ballots active k).concludes ↔ hasWinner ballots active = true := by
  unfold Round.concludes hasWinner majorityThreshold
  rw [mkRound_tallySum, mkRound_tallyMax, mkRound_tally_length]
  simp

theorem mkRound_winner_def (ballots : List Ballot) (active : List String) (k : Nat) :
    (mkRound ballots active k).winner =
      if hasWinner ballots active then roundWinner ballots active else none := rfl

theorem mkRound_eliminated_def (ballots : List Ballot) (active : List String) (k : Nat) :
    (mkRound ballots active k).eliminated =
      if hasWinner ballots active then [] else toEliminate ballots active := rfl

theorem mkRound_exhausted (ballots : List Ballot) (active : List String) (k : Nat) :
    (mkRound ballots active k).exhausted = exhaustedCount ballots active := rfl

theorem mkRound_tally (ballots : List Ballot) (active : List String) (k : Nat) :
    (mkRound ballots active k).tally = tallyList ballots active := rfl

/-! ## The loop: accumulator normalization and unfolding -/

theorem tabulateLoop_accum (ballots : List Ballot) :
    ∀ (n : Nat) (active : List String) (rs : List Round) (k : Nat),
      tabulateLoop ballots n active rs k =
        { rounds := rs ++ (tabulateLoop ballots n active [] k).rounds
          winner := (tabulateLoop ballots n active [] k).winner
          totalRounds := (tabulateLoop ballots n active [] k).totalRounds
          totalBallots := (tabulateLoop ballots n active [] k).totalBallots
          finalTally := (tabulateLoop ballots n active [] k).finalTally } := by
  intro n
  induction n with
  | zero =>
    intro active rs k
    simp [tabulateLoop, exitLoop]
  | succ n ih =>
    intro active rs k
    by_cases h1 : 1 < active.length
    · cases hw : hasWinner ballots active with
      | true => simp [tabulateLoop, h1, hw]
      | false =>
        have e1 := ih (nextActive ballots active) (rs ++ [mkRound ballots active k]) (k + 1)
        have e2 := ih (nextActive ballots active) ([mkRound ballots active k]) (k + 1)
        simp only [tabulateLoop, h1, hw, if_true, if_false, List.nil_append, ite_true,
          ite_false, Bool.false_eq_true]
        rw [e1, e2]
        simp
    · simp [tabulateLoop, h1, exitLoop]

/-- The list of rounds recorded by the loop started at `active`, ignoring
previously accumulated rounds. -/
def loopRounds (ballots : List Ballot) (n : Nat) (active : List String) (k : Nat) :
    List Round :=
  (tabulateLoop ballots n active [] k).rounds

theorem loopRounds_exit (ballots : List Ballot) (n : Nat) {active : List String} (k : Nat)
    (h1 : ¬ 1 < active.length) : loopRounds ballots n active k = [] := by
  cases n with
  | zero => simp [loopRounds, tabulateLoop, exitLoop]
  | succ n => simp [loopRounds, tabulateLoop, h1, exitLoop]

theorem loopRounds_concl (ballots : List Ballot) (n : Nat) {active : List String} (k : Nat)
    (h1 : 1 < active.length) (hw : hasWinner ballots active = true) :
    loopRounds ballots (n + 1) active k = [mkRound ballots active k] := by
  simp [loopRounds, tabulateLoop, h1, hw]

theorem loopRounds_step (ballots : List Ballot) (n : Nat) {active : List String} (k : Nat)
    (h1 : 1 < active.length) (hw : hasWinner ballots active = false) :
    loopRounds ballots (n + 1) active k =
      mkRound ballots active k :: loopRounds ballots n (nextActive ballots active) (k + 1) := by
  unfold loopRounds
  simp only [tabulateLoop, h1, hw, if_true, ite_true, ite_false, Bool.false_eq_true,
    List.nil_append]
  rw [tabulateLoop_accum ballots n (nextActive ballots active) [mkRound ballots active k] (k + 1)]
  simp

theorem tabulateRCV_rounds (ballots : List Ballot) (candidates : List String) :
    (tabulateRCV ballots candidates).rounds =
      loopRounds ballots candidates.eraseDups.length candidates.eraseDups 1 := rfl

/-! ## Inductive invariants of the recorded rounds -/

theorem loopRounds_conservation (ballots : List Ballot) :
    ∀ (n : Nat) (active : List String) (k : Nat), active.Nodup →
      ∀ r ∈ loopRounds ballots n active k, r.tallySum + r.exhausted = ballots.length := by
  intro n
  induction n with
  | zero =>
    intro active k hnd r hr
    simp [loopRounds, tabulateLoop, exitLoop] at hr
  | succ n ih =>
    intro active k hnd r hr
    by_cases h1 : 1 < active.length
    · cases hw : hasWinner ballots active with
      | true =>
        rw [loopRounds_concl ballots n k h1 hw] at hr
        simp only [List.mem_singleton] at hr
        subst hr
        rw [mkRound_tallySum, mkRound_exhausted]
        exact totalVotes_add_exhaustedCount ballots active hnd
      | false =>
        rw [loopRounds_step ballots n k h1 hw] at hr
        rcases List.mem_cons.mp hr with rfl | hr
        · rw [mkRound_tallySum, mkRound_exhausted]
          exact totalVotes_add_exhaustedCount ballots active hnd
        · exact ih (nextActive ballots active) (k + 1) (nextActive_nodup ballots hnd) r hr
    · rw [loopRounds_exit ballots (n + 1) k h1] at hr
      cases hr

theorem loopRounds_shape (ballots : List Ballot) :
    ∀ (n : Nat) (active : List String) (k : Nat)
      (i : Nat) (hi : i < (loopRounds ballots n active k).length),
      (((loopRounds ballots n active k)[i]).winner.isSome ↔
          ((loopRounds ballots n active k)[i]).concludes)
      ∧ (((loopRounds ballots n active k)[i]).winner.isSome →
          ((loopRounds ballots n active k)[i]).eliminated = []
          ∧ i + 1 = (loopRounds ballots n active k).length) := by
  intro n
  induction n with
  | zero =>
    intro active k i hi
    simp [loopRounds, tabulateLoop, exitLoop] at hi
  | succ n ih =>
    intro active k i hi
    by_cases h1 : 1 < active.length
    · cases hw : hasWinner ballots active with
      | true =>
        have hne : active ≠ [] := by
          intro h
          rw [h] at h1
          simp at h1
        have hsome : (roundWinner ballots active).isSome := roundWinner_isSome ballots hne
        simp only [loopRounds_concl ballots n k h1 hw] at hi ⊢
        have hi0 : i = 0 := by
          simp only [List.length_singleton] at hi
          omega
        subst hi0
        simp only [List.getElem_singleton, List.length_singleton]
        refine ⟨?_, fun _ => ⟨by rw [mkRound_eliminated_def, hw, if_pos rfl], by simp⟩⟩
        rw [mkRound_concludes_iff]
        constructor
        · intro _
          exact hw
        · intro _
          rw [mkRound_winner_def, hw, if_pos rfl]
          exact hsome
      | false =>
        simp only [loopRounds_step ballots n k h1 hw] at hi ⊢
        cases i with
        | zero =>
          simp only [List.getElem_cons_zero]
          have hwinner : (mkRound ballots active k).winner = none := by
            rw [mkRound_winner_def, hw]
            simp
          rw [hwinner]
          constructor
          · simp only [Option.isSome_none, Bool.false_eq_true, false_iff]
            rw [mkRound_concludes_iff, hw]
            simp
          · simp
        | succ i =>
          simp only [List.getElem_cons_succ, List.length_cons] at hi ⊢
          have hi' : i < (loopRounds ballots n (nextActive ballots active) (k + 1)).length :=
            Nat.lt_of_succ_lt_succ hi
          obtain ⟨ha, hb⟩ := ih (nextActive ballots active) (k + 1) i hi'
          refine ⟨ha, fun hs => ⟨(hb hs).1, ?_⟩⟩
          have := (hb hs).2
          omega
    · rw [loopRounds_exit ballots (n + 1) k h1] at hi
      simp at hi

theorem loopRounds_keys (ballots : List Ballot) :
    ∀ (n : Nat) (active : List String) (k : Nat),
      ∀ r ∈ loopRounds ballots n active k,
        r.tallyKeys ⊆ active ∧ r.eliminated ⊆ r.tallyKeys := by
  intro n
  induction n with
  | zero =>
    intro active k r hr
    simp [loopRounds, tabulateLoop, exitLoop] at hr
  | succ n ih =>
    intro active k r hr
    by_cases h1 : 1 < active.length
    · cases hw : hasWinner ballots active with
      | true =>
        rw [loopRounds_concl ballots n k h1 hw] at hr
        simp only [List.mem_singleton] at hr
        subst hr
        rw [mkRound_tallyKeys, mkRound_eliminated_def, hw, if_pos rfl]
        exact ⟨fun c hc => hc, by simp⟩
      | false =>
        rw [loopRounds_step ballots n k h1 hw] at hr
        rcases List.mem_cons.mp hr with rfl | hr
        · rw [mkRound_tallyKeys, mkRound_eliminated_def, hw]
          simp only [Bool.false_eq_true, if_false, ite_false]
          refine ⟨fun c hc => hc, fun c hc => ?_⟩
          exact ((mem_toEliminate_iff ballots active c).mp hc).1
        · obtain ⟨hk, he⟩ := ih (nextActive ballots active) (k + 1) r hr
          exact ⟨fun c hc => nextActive_subset ballots active (hk hc), he⟩
    · rw [loopRounds_exit ballots (n + 1) k h1] at hr
      cases hr

theorem loopRounds_head_keys (ballots : List Ballot) (n : Nat) (active : List String) (k : Nat)
    {r : Round} {t : List Round} (h : loopRounds ballots n active k = r :: t) :
    r.tallyKeys = active := by
  cases n with
  | zero =>
    rw [show loopRounds ballots 0 active k = [] from by
      simp [loopRounds, tabulateLoop, exitLoop]] at h
    cases h
  | succ n =>
    by_cases h1 : 1 < active.length
    · cases hw : hasWinner ballots active with
      | true =>
        rw [loopRounds_concl ballots n k h1 hw] at h
        obtain ⟨rfl, _⟩ := List.cons.injEq .. ▸ h
        exact mkRound_tallyKeys ballots active k
      | false =>
        rw [loopRounds_step ballots n k h1 hw] at h
        obtain ⟨rfl, _⟩ := List.cons.injEq .. ▸ h
        exact mkRound_tallyKeys ballots active k
    · rw [loopRounds_exit ballots (n + 1) k h1] at h
      cases h

theorem loopRounds_later (ballots : List Ballot) :
    ∀ (n : Nat) (active : List String) (k : Nat)
      (i j : Nat) (hi : i < (loopRounds ballots n active k).length)
      (hj : j < (loopRounds ballots n active k).length), i < j →
      ∀ c ∈ ((loopRounds ballots n active k)[i]).eliminated,
        c ∉ ((loopRounds ballots n active k)[j]).eliminated
        ∧ c ∉ ((loopRounds ballots n active k)[j]).tallyKeys := by
  intro n
  induction n with
  | zero =>
    intro active k i j hi hj hij c hc
    simp [loopRounds, tabulateLoop, exitLoop] at hi
  | succ n ih =>
    intro active k i j hi hj hij c hc
    by_cases h1 : 1 < active.length
    · cases hw : hasWinner ballots active with
      | true =>
        rw [loopRounds_concl ballots n k h1 hw] at hi hj
        simp only [List.length_singleton] at hi hj
        omega
      | false =>
        simp only [loopRounds_step ballots n k h1 hw] at hi hj hc ⊢
        cases i with
        | zero =>
          simp only [List.getElem_cons_zero, mkRound_eliminated_def, hw,
            Bool.false_eq_true, if_false, ite_false] at hc
          obtain ⟨j', rfl⟩ : ∃ j', j = j' + 1 := ⟨j - 1, by omega⟩
          simp only [List.getElem_cons_succ]
          have hj' : j' < (loopRounds ballots n (nextActive ballots active) (k + 1)).length := by
            simp only [List.length_cons] at hj
            omega
          have hmem : (loopRounds ballots n (nextActive ballots active) (k + 1))[j']
              ∈ loopRounds ballots n (nextActive ballots active) (k + 1) :=
            List.getElem_mem hj'
          obtain ⟨hkeys, helim⟩ := loopRounds_keys ballots n (nextActive ballots active)
            (k + 1) _ hmem
          have hnot : c ∉ nextActive ballots active :=
            toEliminate_disjoint_nextActive ballots active hc
          exact ⟨fun h => hnot (hkeys (helim h)), fun h => hnot (hkeys h)⟩
        | succ i' =>
          obtain ⟨j', rfl⟩ : ∃ j', j = j' + 1 := ⟨j - 1, by omega⟩
          simp only [List.getElem_cons_succ] at hc ⊢
          simp only [List.length_cons] at hi hj
          exact ih (nextActive ballots active) (k + 1) i' j' (by omega) (by omega)
            (by omega) c hc
    · rw [loopRounds_exit ballots (n + 1) k h1] at hi
      simp at hi

theorem loopRounds_shrink (ballots : List Ballot) :
    ∀ (n : Nat) (active : List String) (k : Nat)
      (i : Nat) (h2 : i + 1 < (loopRounds ballots n active k).length),
      (((loopRounds ballots n active k)[i + 1]).tally.length <
        ((loopRounds ballots n active k)[i]).tally.length) := by
  intro n
  induction n with
  | zero =>
    intro active k i h2
    simp [loopRounds, tabulateLoop, exitLoop] at h2
  | succ n ih =>
    intro active k i h2
    by_cases h1 : 1 < active.length
    · cases hw : hasWinner ballots active with
      | true =>
        rw [loopRounds_concl ballots n k h1 hw] at h2
        simp at h2
      | false =>
        simp only [loopRounds_step ballots n k h1 hw] at h2 ⊢
        cases i with
        | zero =>
          simp only [List.getElem_cons_succ, List.getElem_cons_zero]
          simp only [List.length_cons] at h2
          have hTpos : 0 < (loopRounds ballots n (nextActive ballots active) (k + 1)).length := by
            omega
          obtain ⟨r', t', hT⟩ : ∃ r' t',
              loopRounds ballots n (nextActive ballots active) (k + 1) = r' :: t' := by
            cases hT : loopRounds ballots n (nextActive ballots active) (k + 1) with
            | nil => rw [hT] at hTpos; simp at hTpos
            | cons r' t' => exact ⟨r', t', rfl⟩
          have hkeys : r'.tallyKeys = nextActive ballots active :=
            loopRounds_head_keys ballots n (nextActive ballots active) (k + 1) hT
          have hlen : ∀ r : Round, r.tally.length = r.tallyKeys.length := by
            intro r
            simp [Round.tallyKeys]
          have h0 : (loopRounds ballots n (nextActive ballots active) (k + 1))[0] = r' := by
            simp only [hT, List.getElem_cons_zero]
          rw [h0, hlen r', hkeys, mkRound_tally_length]
          have hne : active ≠ [] := by
            intro h
            rw [h] at h1
            simp at h1
          exact nextActive_length_lt ballots hne
        | succ i' =>
          simp only [List.getElem_cons_succ]
          simp only [List.length_cons] at h2
          exact ih (nextActive ballots active) (k + 1) i' (by omega)
    · rw [loopRounds_exit ballots (n + 1) k h1] at h2
      simp at h2

theorem loopRounds_length_le (ballots : List Ballot) :
    ∀ (n : Nat) (active : List String) (k : Nat), active.length ≤ n →
      (loopRounds ballots n active k).length ≤ active.length := by
  intro n
  induction n with
  | zero =>
    intro active k hn
    simp [loopRounds, tabulateLoop, exitLoop]
  | succ n ih =>
    intro active k hn
    by_cases h1 : 1 < active.length
    · cases hw : hasWinner ballots active with
      | true =>
        rw [loopRounds_concl ballots n k h1 hw]
        simp only [List.length_singleton]
        omega
      | false =>
        rw [loopRounds_step ballots n k h1 hw]
        simp only [List.length_cons]
        have hne : active ≠ [] := by
          intro h
          rw [h] at h1
          simp at h1
        have hlt := nextActive_length_lt ballots hne
        have := ih (nextActive ballots active) (k + 1) (by omega)
        omega
    · rw [loopRounds_exit ballots (n + 1) k h1]
      simp

theorem loopRounds_elim_iff (ballots : List Ballot) :
    ∀ (n : Nat) (active : List String) (k : Nat)
      (i : Nat) (hi : i < (loopRounds ballots n active k).length),
      ((loopRounds ballots n active k)[i]).winner = none →
      ∀ c, c ∈ ((loopRounds ballots n active k)[i]).eliminated ↔
        ∃ v, (c, v) ∈ ((loopRounds ballots n active k)[i]).tally
          ∧ v = ((loopRounds ballots n active k)[i]).tallyMin := by
  intro n
  induction n with
  | zero =>
    intro active k i hi
    simp [loopRounds, tabulateLoop, exitLoop] at hi
  | succ n ih =>
    intro active k i hi hnone c
    by_cases h1 : 1 < active.length
    · cases hw : hasWinner ballots active with
      | true =>
        have hne : active ≠ [] := by
          intro h
          rw [h] at h1
          simp at h1
        simp only [loopRounds_concl ballots n k h1 hw] at hi hnone
        have hi0 : i = 0 := by
          simp only [List.length_singleton] at hi
          omega
        subst hi0
        simp only [List.getElem_singleton] at hnone
        rw [mkRound_winner_def, hw, if_pos rfl] at hnone
        have := roundWinner_isSome ballots hne
        rw [hnone] at this
        simp at this
      | false =>
        simp only [loopRounds_step ballots n k h1 hw] at hi hnone ⊢
        cases i with
        | zero =>
          simp only [List.getElem_cons_zero] at hnone ⊢
          rw [mkRound_eliminated_def, hw, mkRound_tally, mkRound_tallyMin]
          simp only [Bool.false_eq_true, if_false, ite_false]
          rw [mem_toEliminate_iff]
          constructor
          · rintro ⟨hca, hmin⟩
            exact ⟨voteCounts ballots active c, (mem_tallyList_iff ballots active c _).mpr
              ⟨hca, rfl⟩, hmin⟩
          · rintro ⟨v, hv, rfl⟩
            obtain ⟨hca, hvc⟩ := (mem_tallyList_iff ballots active c _).mp hv
            exact ⟨hca, hvc.symm⟩
        | succ i' =>
          simp only [List.getElem_cons_succ] at hnone ⊢
          simp only [List.length_cons] at hi
          exact ih (nextActive ballots active) (k + 1) i' (by omega) hnone c
    · rw [loopRounds_exit ballots (n + 1) k h1] at hi
      simp at hi

theorem tabulateLoop_totalBallots (ballots : List Ballot) :
    ∀ (n : Nat) (active : List String) (rs : List Round) (k : Nat),
      (tabulateLoop ballots n active rs k).totalBallots = ballots.length := by
  intro n
  induction n with
  | zero =>
    intro active rs k
    simp [tabulateLoop, exitLoop]
  | succ n ih =>
    intro active rs k
    by_cases h1 : 1 < active.length
    · cases hw : hasWinner ballots active with
      | true => simp [tabulateLoop, h1, hw]
      | false =>
        simp only [tabulateLoop, h1, hw, if_true, ite_true, ite_false, Bool.false_eq_true]
        exact ih (nextActive ballots active) (rs ++ [mkRound ballots active k]) (k + 1)
    · simp [tabulateLoop, h1, exitLoop]

theorem tabulateLoop_totalRounds (ballots : List Ballot) :
    ∀ (n : Nat) (active : List String) (k : Nat), 1 ≤ k →
      (tabulateLoop ballots n active [] k).totalRounds =
        k - 1 + (loopRounds ballots n active k).length := by
  intro n
  induction n with
  | zero =>
    intro active k hk
    simp [tabulateLoop, exitLoop, loopRounds]
  | succ n ih =>
    intro active k hk
    by_cases h1 : 1 < active.length
    · cases hw : hasWinner ballots active with
      | true =>
        rw [loopRounds_concl ballots n k h1 hw]
        simp only [tabulateLoop, h1, hw, if_true, ite_true, List.length_singleton]
        omega
      | false =>
        rw [loopRounds_step ballots n k h1 hw]
        simp only [tabulateLoop, h1, hw, if_true, ite_true, ite_false, Bool.false_eq_true,
          List.nil_append, List.length_cons]
        rw [tabulateLoop_accum ballots n (nextActive ballots active)
          [mkRound ballots active k] (k + 1)]
        have := ih (nextActive ballots active) (k + 1) (by omega)
        simp only []
        rw [this]
        omega
    · simp only [tabulateLoop, h1, ite_false, if_false]
      rw [loopRounds_exit ballots (n + 1) k h1]
      simp [exitLoop]

theorem tabulateLoop_finalTally (ballots : List Ballot) :
    ∀ (n : Nat) (active : List String) (k : Nat) (r : Round),
      (loopRounds ballots n active k).getLast? = some r → r.winner.isSome →
      (tabulateLoop ballots n active [] k).finalTally = r.tally := by
  intro n
  induction n with
  | zero =>
    intro active k r hlast hsome
    rw [show loopRounds ballots 0 active k = [] from by
      simp [loopRounds, tabulateLoop, exitLoop]] at hlast
    cases hlast
  | succ n ih =>
    intro active k r hlast hsome
    by_cases h1 : 1 < active.length
    · cases hw : hasWinner ballots active with
      | true =>
        rw [loopRounds_concl ballots n k h1 hw] at hlast
        simp only [List.getLast?_singleton, Option.some.injEq] at hlast
        subst hlast
        simp only [tabulateLoop, h1, hw, if_true, ite_true]
        rfl
      | false =>
        rw [loopRounds_step ballots n k h1 hw] at hlast
        cases hT : loopRounds ballots n (nextActive ballots active) (k + 1) with
        | nil =>
          rw [hT] at hlast
          simp only [List.getLast?_singleton, Option.some.injEq] at hlast
          subst hlast
          rw [mkRound_winner_def, hw] at hsome
          simp at hsome
        | cons r1 t1 =>
          rw [hT] at hlast
          rw [List.getLast?_cons_cons] at hlast
          simp only [tabulateLoop, h1, hw, if_true, ite_true, ite_false, Bool.false_eq_true,
            List.nil_append]
          rw [tabulateLoop_accum ballots n (nextActive ballots active)
            [mkRound ballots active k] (k + 1)]
          simp only []
          refine ih (nextActive ballots active) (k + 1) r ?_ hsome
          rw [hT]
          exact hlast
    · rw [loopRounds_exit ballots (n + 1) k h1] at hlast
      cases hlast

/-! ## The candidate-vote projection -/

theorem mem_generateCandidateVoteData {rounds : List Round} {candidates : List String}
    {cv : CandidateVote} (hcv : cv ∈ generateCandidateVoteData rounds candidates) :
    ∃ c ∈ candidates, cv = candidateVoteEntry rounds c := by
  unfold generateCandidateVoteData at hcv
  have hmem := (List.perm_insertionSort
    (fun a b => b.firstRoundVotes + b.transferVotes ≤
      a.firstRoundVotes + a.transferVotes)
    (candidates.map (candidateVoteEntry rounds))).mem_iff.mp hcv
  rcases List.mem_map.mp hmem with ⟨c, hc, hce⟩
  exact ⟨c, hc, hce.symm⟩

theorem candidateVoteEntry_candidate (rounds : List Round) (c : String) :
    (candidateVoteEntry rounds c).candidate = c := rfl

theorem candidateVoteEntry_roundEliminated (rounds : List Round) (c : String) :
    (candidateVoteEntry rounds c).roundEliminated =
      (rounds.findIdx? (fun r => r.eliminated.contains c)).map (· + 1) := rfl

theorem candidateVoteEntry_winner (rounds : List Round) (c : String) :
    (candidateVoteEntry rounds c).winner =
      ((rounds.getLast?.bind Round.winner) == some c) := rfl

/-! ## The claims -/

/-- C1: a recorded round concludes the contest (its `winner` is set) iff
its maximum tally is at least `floor(totalActiveVotes / 2) + 1` or at most
one candidate is active; a concluding round has `eliminated = []` and is
the last recorded round. -/
theorem claim1_win_condition (ballots : List Ballot) (candidates : List String)
    (i : Nat) (r : Round) (hr : (tabulateRCV ballots candidates).rounds[i]? = some r) :
    (r.winner.isSome ↔ r.concludes)
    ∧ (r.winner.isSome →
        r.eliminated = [] ∧ i + 1 = (tabulateRCV ballots candidates).rounds.length) := by
  rw [tabulateRCV_rounds] at hr
  obtain ⟨hi, hgr⟩ := List.getElem?_eq_some_iff.mp hr
  subst hgr
  rw [tabulateRCV_rounds]
  exact loopRounds_shape ballots candidates.eraseDups.length candidates.eraseDups 1 i hi

theorem claim1_win_condition_witness :
    ((tabulateRCV [⟨"1", ["A"]⟩, ⟨"2", ["A"]⟩, ⟨"3", ["B"]⟩] ["A", "B"]).rounds[0]? =
      some { round := 1, tally := [("A", 2), ("B", 1)], allocations := [("A", 2), ("B", 1)],
             eliminated := [], exhausted := 0, winner := some "A" })
    ∧ ((({ round := 1, tally := [("A", 2), ("B", 1)], allocations := [("A", 2), ("B", 1)],
           eliminated := [], exhausted := 0, winner := some "A" } : Round).winner.isSome ↔
          ({ round := 1, tally := [("A", 2), ("B", 1)], allocations := [("A", 2), ("B", 1)],
             eliminated := [], exhausted := 0, winner := some "A" } : Round).concludes)
        ∧ (({ round := 1, tally := [("A", 2), ("B", 1)], allocations := [("A", 2), ("B", 1)],
              eliminated := [], exhausted := 0, winner := some "A" } : Round).winner.isSome →
            ({ round := 1, tally := [("A", 2), ("B", 1)], allocations := [("A", 2), ("B", 1)],
               eliminated := [], exhausted := 0, winner := some "A" } : Round).eliminated = []
            ∧ 0 + 1 =
              (tabulateRCV [⟨"1", ["A"]⟩, ⟨"2", ["A"]⟩, ⟨"3", ["B"]⟩] ["A", "B"]).rounds.length)) :=
  ⟨by decide,
    claim1_win_condition [⟨"1", ["A"]⟩, ⟨"2", ["A"]⟩, ⟨"3", ["B"]⟩] ["A", "B"] 0 _ (by decide)⟩

/-- C2: for every recorded round, the sum of the tally values plus the
exhausted count equals the total number of ballots, and the result's
`totalBallots` is that ballot count. -/
theorem claim2_conservation (ballots : List Ballot) (candidates : List String) (r : Round)
    (hr : r ∈ (tabulateRCV ballots candidates).rounds) :
    r.tallySum + r.exhausted = ballots.length
    ∧ (tabulateRCV ballots candidates).totalBallots = ballots.length := by
  constructor
  · rw [tabulateRCV_rounds] at hr
    exact loopRounds_conservation ballots candidates.eraseDups.length candidates.eraseDups 1
      (nodup_eraseDups candidates) r hr
  · exact tabulateLoop_totalBallots ballots candidates.eraseDups.length candidates.eraseDups [] 1

theorem claim2_conservation_witness :
    (({ round := 2, tally := [("A", 3), ("B", 2)],
        allocations := [("A", 3), ("B", 2), ("X", 1)],
        eliminated := [], exhausted := 1, winner := some "A" } : Round) ∈
      (tabulateRCV
        [⟨"1", ["A"]⟩, ⟨"2", ["A"]⟩, ⟨"3", ["A"]⟩, ⟨"4", ["B"]⟩, ⟨"5", ["B"]⟩, ⟨"6", ["C"]⟩]
        ["A", "B", "C"]).rounds)
    ∧ (({ round := 2, tally := [("A", 3), ("B", 2)],
          allocations := [("A", 3), ("B", 2), ("X", 1)],
          eliminated := [], exhausted := 1, winner := some "A" } : Round).tallySum +
        ({ round := 2, tally := [("A", 3), ("B", 2)],
           allocations := [("A", 3), ("B", 2), ("X", 1)],
           eliminated := [], exhausted := 1, winner := some "A" } : Round).exhausted =
        [⟨"1", ["A"]⟩, ⟨"2", ["A"]⟩, ⟨"3", ["A"]⟩, ⟨"4", ["B"]⟩, ⟨"5", ["B"]⟩,
          (⟨"6", ["C"]⟩ : Ballot)].length
      ∧ (tabulateRCV
          [⟨"1", ["A"]⟩, ⟨"2", ["A"]⟩, ⟨"3", ["A"]⟩, ⟨"4", ["B"]⟩, ⟨"5", ["B"]⟩, ⟨"6", ["C"]⟩]
          ["A", "B", "C"]).totalBallots =
        [⟨"1", ["A"]⟩, ⟨"2", ["A"]⟩, ⟨"3", ["A"]⟩, ⟨"4", ["B"]⟩, ⟨"5", ["B"]⟩,
          (⟨"6", ["C"]⟩ : Ballot)].length) :=
  ⟨by decide,
    claim2_conservation
      [⟨"1", ["A"]⟩, ⟨"2", ["A"]⟩, ⟨"3", ["A"]⟩, ⟨"4", ["B"]⟩, ⟨"5", ["B"]⟩, ⟨"6", ["C"]⟩]
      ["A", "B", "C"] _ (by decide)⟩

/-- C3 counterexample: with candidates `["A", "B"]` and one first-choice
ballot each, round 1 has no majority (1 < floor(2/2)+1 = 2), both
candidates tie for the minimum and are eliminated together, the active
set becomes empty, and the fallback returns `winner = none` — the loop
does not terminate "with at least one candidate still active" and the
`|active| <= 1` win-condition branch never fires (no recorded round has a
winner). -/
theorem claim3_counterexample :
    (tabulateRCV [⟨"1", ["A"]⟩, ⟨"2", ["B"]⟩] ["A", "B"]).winner = none
    ∧ ((tabulateRCV [⟨"1", ["A"]⟩, ⟨"2", ["B"]⟩] ["A", "B"]).rounds.map Round.eliminated)
        = [["A", "B"]]
    ∧ ((tabulateRCV [⟨"1", ["A"]⟩, ⟨"2", ["B"]⟩] ["A", "B"]).rounds.map Round.winner)
        = [none] := by
  decide

/-- C3 (amended): the active set strictly shrinks by at least one
candidate per non-concluding round (consecutive recorded rounds tally
strictly fewer candidates), and the loop terminates in at most
`|candidates|` rounds; but the active set can become empty (all remaining
candidates tied for the minimum without a majority), in which case the
fallback returns `winner = none`. -/
theorem claim3_monotonic_shrink (ballots : List Ballot) (candidates : List String) :
    (∀ (i : Nat) (r r' : Round),
        (tabulateRCV ballots candidates).rounds[i]? = some r →
        (tabulateRCV ballots candidates).rounds[i + 1]? = some r' →
        r'.tally.length < r.tally.length)
    ∧ (tabulateRCV ballots candidates).rounds.length ≤ candidates.length := by
  constructor
  · intro i r r' hr hr'
    rw [tabulateRCV_rounds] at hr hr'
    obtain ⟨hi, hgr⟩ := List.getElem?_eq_some_iff.mp hr
    obtain ⟨hi', hgr'⟩ := List.getElem?_eq_some_iff.mp hr'
    subst hgr
    subst hgr'
    exact loopRounds_shrink ballots candidates.eraseDups.length candidates.eraseDups 1 i hi'
  · rw [tabulateRCV_rounds]
    calc (loopRounds ballots candidates.eraseDups.length candidates.eraseDups 1).length
        ≤ candidates.eraseDups.length :=
          loopRounds_length_le ballots candidates.eraseDups.length candidates.eraseDups 1
            (Nat.le_refl _)
      _ ≤ candidates.length := length_eraseDups_le candidates

theorem claim3_monotonic_shrink_witness :
    ((tabulateRCV
        [⟨"1", ["A"]⟩, ⟨"2", ["A"]⟩, ⟨"3", ["A"]⟩, ⟨"4", ["B"]⟩, ⟨"5", ["B"]⟩, ⟨"6", ["C"]⟩]
        ["A", "B", "C"]).rounds[0]? =
      some { round := 1, tally := [("A", 3), ("B", 2), ("C", 1)],
             allocations := [("A", 3), ("B", 2), ("C", 1)],
             eliminated := ["C"], exhausted := 0, winner := none })
    ∧ ((tabulateRCV
        [⟨"1", ["A"]⟩, ⟨"2", ["A"]⟩, ⟨"3", ["A"]⟩, ⟨"4", ["B"]⟩, ⟨"5", ["B"]⟩, ⟨"6", ["C"]⟩]
        ["A", "B", "C"]).rounds[1]? =
      some { round := 2, tally := [("A", 3), ("B", 2)],
             allocations := [("A", 3), ("B", 2), ("X", 1)],
             eliminated := [], exhausted := 1, winner := some "A" })
    ∧ ((∀ (i : Nat) (r r' : Round),
          (tabulateRCV
            [⟨"1", ["A"]⟩, ⟨"2", ["A"]⟩, ⟨"3", ["A"]⟩, ⟨"4", ["B"]⟩, ⟨"5", ["B"]⟩,
              ⟨"6", ["C"]⟩] ["A", "B", "C"]).rounds[i]? = some r →
          (tabulateRCV
            [⟨"1", ["A"]⟩, ⟨"2", ["A"]⟩, ⟨"3", ["A"]⟩, ⟨"4", ["B"]⟩, ⟨"5", ["B"]⟩,
              ⟨"6", ["C"]⟩] ["A", "B", "C"]).rounds[i + 1]? = some r' →
          r'.tally.length < r.tally.length)
        ∧ (tabulateRCV
            [⟨"1", ["A"]⟩, ⟨"2", ["A"]⟩, ⟨"3", ["A"]⟩, ⟨"4", ["B"]⟩, ⟨"5", ["B"]⟩,
              ⟨"6", ["C"]⟩] ["A", "B", "C"]).rounds.length ≤ ["A", "B", "C"].length) :=
  ⟨by decide, by decide,
    claim3_monotonic_shrink
      [⟨"1", ["A"]⟩, ⟨"2", ["A"]⟩, ⟨"3", ["A"]⟩, ⟨"4", ["B"]⟩, ⟨"5", ["B"]⟩, ⟨"6", ["C"]⟩]
      ["A", "B", "C"]⟩

/-- C4: in every non-concluding round (`winner = none`), a candidate is
eliminated in that round exactly when its tally equals the round's
minimum tally (simultaneous multi-elimination of all last-place ties, and
only those), and no eliminated candidate appears among the next round's
tallied (active) candidates. -/
theorem claim4_tie_elimination (ballots : List Ballot) (candidates : List String)
    (i : Nat) (r : Round) (hr : (tabulateRCV ballots candidates).rounds[i]? = some r)
    (hnone : r.winner = none) :
    (∀ c, c ∈ r.eliminated ↔ ∃ v, (c, v) ∈ r.tally ∧ v = r.tallyMin)
    ∧ (∀ r' : Round, (tabulateRCV ballots candidates).rounds[i + 1]? = some r' →
        ∀ c ∈ r.eliminated, c ∉ r'.eliminated ∧ c ∉ r'.tallyKeys) := by
  rw [tabulateRCV_rounds] at hr
  obtain ⟨hi, hgr⟩ := List.getElem?_eq_some_iff.mp hr
  subst hgr
  constructor
  · exact loopRounds_elim_iff ballots candidates.eraseDups.length candidates.eraseDups 1
      i hi hnone
  · intro r' hr' c hc
    rw [tabulateRCV_rounds] at hr'
    obtain ⟨hi', hgr'⟩ := List.getElem?_eq_some_iff.mp hr'
    subst hgr'
    exact loopRounds_later ballots candidates.eraseDups.length candidates.eraseDups 1
      i (i + 1) hi hi' (by omega) c hc

/-- Concrete four-candidate contest with a two-way last-place tie in
round 1 (A=3, B=2, C=1, D=1; threshold 4): C and D are eliminated
together and A wins round 2 by majority. -/
def tieBallots : List Ballot :=
  [⟨"1", ["A"]⟩, ⟨"2", ["A"]⟩, ⟨"3", ["A"]⟩, ⟨"4", ["B"]⟩, ⟨"5", ["B"]⟩, ⟨"6", ["C"]⟩,
    ⟨"7", ["D"]⟩]

/-- The first recorded round of `tieBallots` with candidates A, B, C, D. -/
def tieRound1 : Round :=
  { round := 1, tally := [("A", 3), ("B", 2), ("C", 1), ("D", 1)],
    allocations := [("A", 3), ("B", 2), ("C", 1), ("D", 1)],
    eliminated := ["C", "D"], exhausted := 0, winner := none }

theorem claim4_tie_elimination_witness :
    ((tabulateRCV tieBallots ["A", "B", "C", "D"]).rounds[0]? = some tieRound1)
    ∧ tieRound1.winner = none
    ∧ ((∀ c, c ∈ tieRound1.eliminated ↔
          ∃ v, (c, v) ∈ tieRound1.tally ∧ v = tieRound1.tallyMin)
        ∧ (∀ r' : Round,
            (tabulateRCV tieBallots ["A", "B", "C", "D"]).rounds[0 + 1]? = some r' →
            ∀ c ∈ tieRound1.eliminated, c ∉ r'.eliminated ∧ c ∉ r'.tallyKeys)) :=
  ⟨by decide, by decide,
    claim4_tie_elimination tieBallots ["A", "B", "C", "D"] 0 tieRound1
      (by decide) (by decide)⟩

/-- C5: in every round, the tally of a candidate counts exactly the
ballots whose first choice among the active candidates is that candidate;
the exhausted count counts exactly the ballots with no active choice; a
choice is the "first active choice" precisely when every earlier-ranked
choice is outside the active set (eliminated or unknown entries are
skipped without effect); a ballot none of whose choices is active —
including a ballot with zero choices — is exhausted. -/
theorem claim5_first_active_choice (active : List String) (ballots : List Ballot) :
    (∀ c, voteCounts ballots active c =
        (ballots.filter (fun x => firstActiveChoice active x == some c)).length)
    ∧ exhaustedCount ballots active =
        (ballots.filter (fun x => (firstActiveChoice active x).isNone)).length
    ∧ (∀ (x : Ballot) (c : String), firstActiveChoice active x = some c ↔
        c ∈ active ∧ ∃ pre post, x.choices = pre ++ c :: post ∧ ∀ y ∈ pre, y ∉ active)
    ∧ (∀ x : Ballot, firstActiveChoice active x = none ↔ ∀ y ∈ x.choices, y ∉ active)
    ∧ (∀ idx : String, firstActiveChoice active ⟨idx, []⟩ = none) :=
  ⟨fun c => voteCounts_eq_filter_length ballots active c,
    exhaustedCount_eq_filter_length ballots active,
    fun x c => firstActiveChoice_eq_some_iff active x c,
    fun x => firstActiveChoice_eq_none_iff active x,
    fun _ => rfl⟩

/-- C6 counterexample: called with an empty candidate list, `tabulateRCV`
does not fail and tabulation is not aborted — it returns a complete
TabulationResult (with `winner = none`, modelling the JavaScript
`undefined`, and `finalTally = {"undefined": 1}`, the computed key
`[undefined]` coercing to the string `"undefined"`); no
`InvalidInputError` exists anywhere in the code. -/
theorem claim6_counterexample :
    tabulateRCV [⟨"1", ["A"]⟩] [] =
      { rounds := [], winner := none, totalRounds := 0, totalBallots := 1,
        finalTally := [("undefined", 1)] } := by
  decide

/-- C6 (amended): there is no input validation: with an empty candidate
list the loop never runs and the fallback still produces a
TabulationResult — no rounds, `winner = none` (JavaScript `undefined`),
`totalRounds = 0`, the ballot count, and the one-entry final tally
`{"undefined": ballots.length}` (the JavaScript computed key
`[remainingCandidate]` with `remainingCandidate = undefined`). -/
theorem claim6_no_validation (ballots : List Ballot) :
    tabulateRCV ballots [] =
      { rounds := [], winner := none, totalRounds := 0, totalBallots := ballots.length,
        finalTally := [("undefined", ballots.length)] } := rfl

/-- C7 counterexample: for a single-candidate contest the loop guard
`activeCandidates.size > 1` fails immediately, so no Round is recorded at
all — the rounds sequence has length 0, not 1 as claimed. -/
theorem claim7_counterexample :
    (tabulateRCV [⟨"1", ["A"]⟩, ⟨"2", ["A"]⟩] ["A"]).rounds = []
    ∧ (tabulateRCV [⟨"1", ["A"]⟩, ⟨"2", ["A"]⟩] ["A"]).rounds.length ≠ 1 := by
  decide

/-- C7 (amended): for a single-candidate contest `candidates = [a]` the
loop never runs and the fallback returns winner `a`, an empty rounds
sequence (length 0), `totalRounds = 0`, and a final tally mapping `a` to
the total ballot count. -/
theorem claim7_single_candidate (ballots : List Ballot) (a : String) :
    tabulateRCV ballots [a] =
      { rounds := [], winner := some a, totalRounds := 0, totalBallots := ballots.length,
        finalTally := [(a, ballots.length)] } := rfl

/-- Concrete contest ending through the loop guard rather than the
in-loop majority return: A=2, B=1, C=1 (threshold 3), B and C are both
eliminated, only A remains, and the fallback produces the result. -/
def fallbackBallots : List Ballot :=
  [⟨"1", ["A"]⟩, ⟨"2", ["A"]⟩, ⟨"3", ["B"]⟩, ⟨"4", ["C"]⟩]

/-- C8 counterexample: on the fallback path the recorded final round
tallies A=2, B=1, C=1, but `finalTally` is `{A: totalBallots} = {A: 4}` —
not the tally of the last recorded Round. -/
theorem claim8_counterexample :
    (tabulateRCV fallbackBallots ["A", "B", "C"]).finalTally = [("A", 4)]
    ∧ ((tabulateRCV fallbackBallots ["A", "B", "C"]).rounds.map Round.tally)
        = [[("A", 2), ("B", 1), ("C", 1)]]
    ∧ (tabulateRCV fallbackBallots ["A", "B", "C"]).finalTally
        ≠ [("A", 2), ("B", 1), ("C", 1)] := by
  decide

/-- C8 (amended): `totalRounds` always equals the number of recorded
Rounds; `finalTally` equals the last Round's tally whenever the run ends
by the in-loop majority return (last round's winner set), but on the
fallback path it is instead the surviving candidate mapped to the total
ballot count. -/
theorem claim8_result_fields (ballots : List Ballot) (candidates : List String) :
    (tabulateRCV ballots candidates).totalRounds =
        (tabulateRCV ballots candidates).rounds.length
    ∧ (∀ r : Round, (tabulateRCV ballots candidates).rounds.getLast? = some r →
        r.winner.isSome → (tabulateRCV ballots candidates).finalTally = r.tally) := by
  constructor
  · have h := tabulateLoop_totalRounds ballots candidates.eraseDups.length
      candidates.eraseDups 1 (Nat.le_refl 1)
    rw [tabulateRCV_rounds]
    show (tabulateLoop ballots candidates.eraseDups.length candidates.eraseDups [] 1).totalRounds
      = (loopRounds ballots candidates.eraseDups.length candidates.eraseDups 1).length
    simpa using h
  · intro r hlast hsome
    rw [tabulateRCV_rounds] at hlast
    exact tabulateLoop_finalTally ballots candidates.eraseDups.length candidates.eraseDups 1
      r hlast hsome

/-- Concrete contest decided by an in-loop majority in round 1 (A=2, B=1,
threshold 2). -/
def majBallots : List Ballot := [⟨"1", ["A"]⟩, ⟨"2", ["A"]⟩, ⟨"3", ["B"]⟩]

/-- The single recorded round of `majBallots` with candidates A, B. -/
def majRound1 : Round :=
  { round := 1, tally := [("A", 2), ("B", 1)], allocations := [("A", 2), ("B", 1)],
    eliminated := [], exhausted := 0, winner := some "A" }

theorem claim8_result_fields_witness :
    ((tabulateRCV majBallots ["A", "B"]).rounds.getLast? = some majRound1)
    ∧ majRound1.winner.isSome
    ∧ ((tabulateRCV majBallots ["A", "B"]).totalRounds =
          (tabulateRCV majBallots ["A", "B"]).rounds.length
        ∧ (∀ r : Round, (tabulateRCV majBallots ["A", "B"]).rounds.getLast? = some r →
            r.winner.isSome → (tabulateRCV majBallots ["A", "B"]).finalTally = r.tally)) :=
  ⟨by decide, by decide, claim8_result_fields majBallots ["A", "B"]⟩

/-- C9 counterexample: on the fallback path the TabulationResult's winner
is A, yet the projection's winner flag compares against the last Round's
`winner` field (which is null there), so no projection entry — A's
included — has the winner flag set. -/
theorem claim9_counterexample :
    (tabulateRCV fallbackBallots ["A", "B", "C"]).winner = some "A"
    ∧ ("A" ∈ (generateCandidateVoteData (tabulateRCV fallbackBallots ["A", "B", "C"]).rounds
        ["A", "B", "C"]).map CandidateVote.candidate)
    ∧ ((generateCandidateVoteData (tabulateRCV fallbackBallots ["A", "B", "C"]).rounds
        ["A", "B", "C"]).filter (fun cv => cv.winner)).length = 0 := by
  decide

/-- C9 (amended): for every entry of the projection, `roundEliminated` is
the 1-based index of the first round whose `eliminated` list contains the
candidate (null if no round does), and the winner flag is true exactly
when the LAST ROUND's `winner` field equals the candidate (this coincides
with the TabulationResult's winner for runs concluded by the in-loop
majority return, but not on the fallback path, where the last round's
winner is null). -/
theorem claim9_projection (rounds : List Round) (candidates : List String)
    (cv : CandidateVote) (hcv : cv ∈ generateCandidateVoteData rounds candidates) :
    (∀ i : Nat, cv.roundEliminated = some (i + 1) ↔
        ∃ h : i < rounds.length, cv.candidate ∈ (rounds[i]).eliminated
          ∧ ∀ (j : Nat) (hj : j < rounds.length), j < i →
              cv.candidate ∉ (rounds[j]).eliminated)
    ∧ (cv.roundEliminated = none ↔ ∀ r ∈ rounds, cv.candidate ∉ r.eliminated)
    ∧ (cv.winner = true ↔ ∃ r, rounds.getLast? = some r ∧ r.winner = some cv.candidate) := by
  obtain ⟨c, hc, rfl⟩ := mem_generateCandidateVoteData hcv
  refine ⟨?_, ?_, ?_⟩
  · intro i
    rw [candidateVoteEntry_candidate, candidateVoteEntry_roundEliminated]
    constructor
    · intro h
      rw [Option.map_eq_some'] at h
      obtain ⟨a, ha, hai⟩ := h
      have haa : a = i := by omega
      subst haa
      rw [List.findIdx?_eq_some_iff_getElem] at ha
      obtain ⟨hlt, hp, hprev⟩ := ha
      refine ⟨hlt, by simpa using hp, ?_⟩
      intro j hj hji
      have := hprev j hji
      simpa using this
    · rintro ⟨hlt, hmem, hprev⟩
      rw [Option.map_eq_some']
      refine ⟨i, ?_, rfl⟩
      rw [List.findIdx?_eq_some_iff_getElem]
      refine ⟨hlt, by simpa using hmem, ?_⟩
      intro j hji
      have := hprev j (by omega) hji
      simpa using this
  · rw [candidateVoteEntry_candidate, candidateVoteEntry_roundEliminated]
    rw [Option.map_eq_none']
    rw [List.findIdx?_eq_none_iff]
    constructor
    · intro h r hr hmem
      have hfalse := h r hr
      have hnot : c ∉ r.eliminated := by simpa using hfalse
      exact hnot hmem
    · intro h r hr
      have hnot : c ∉ r.eliminated := h r hr
      simpa using hnot
  · rw [candidateVoteEntry_candidate, candidateVoteEntry_winner]
    rw [show ((rounds.getLast?.bind Round.winner == some c) = true ↔
        rounds.getLast?.bind Round.winner = some c) from beq_iff_eq]
    rw [Option.bind_eq_some]

/-- Concrete two-round contest (A=3, B=2, C=1; C eliminated in round 1,
A wins round 2 by majority). -/
def twoRoundBallots : List Ballot :=
  [⟨"1", ["A"]⟩, ⟨"2", ["A"]⟩, ⟨"3", ["A"]⟩, ⟨"4", ["B"]⟩, ⟨"5", ["B"]⟩, ⟨"6", ["C"]⟩]

/-- The recorded rounds of the two-round contest. -/
def twoRoundRounds : List Round := (tabulateRCV twoRoundBallots ["A", "B", "C"]).rounds

/-- The projection entry for candidate C in the two-round contest:
eliminated in round 1, not the winner. -/
def cVoteEntry : CandidateVote :=
  { candidate := "C", name := "C", firstRoundVotes := 1, transferVotes := 0, votes := 1,
    roundEliminated := some 1, winner := false }

theorem claim9_projection_witness :
    (cVoteEntry ∈ generateCandidateVoteData twoRoundRounds ["A", "B", "C"])
    ∧ ((∀ i : Nat, cVoteEntry.roundEliminated = some (i + 1) ↔
          ∃ h : i < twoRoundRounds.length, cVoteEntry.candidate ∈ (twoRoundRounds[i]).eliminated
            ∧ ∀ (j : Nat) (hj : j < twoRoundRounds.length), j < i →
                cVoteEntry.candidate ∉ (twoRoundRounds[j]).eliminated)
        ∧ (cVoteEntry.roundEliminated = none ↔
            ∀ r ∈ twoRoundRounds, cVoteEntry.candidate ∉ r.eliminated)
        ∧ (cVoteEntry.winner = true ↔
            ∃ r, twoRoundRounds.getLast? = some r ∧ r.winner = some cVoteEntry.candidate)) :=
  ⟨by decide, claim9_projection twoRoundRounds ["A", "B", "C"] cVoteEntry (by decide)⟩

/-- C10: across the rounds of one run, eliminated lists are pairwise
disjoint (once eliminated, never eliminated again), every eliminated
candidate is one of the input candidates, and an eliminated candidate
never reappears among a later round's tallied candidates. -/
theorem claim10_elimination_permanent (ballots : List Ballot) (candidates : List String) :
    (∀ (i j : Nat) (ri rj : Round), i < j →
        (tabulateRCV ballots candidates).rounds[i]? = some ri →
        (tabulateRCV ballots candidates).rounds[j]? = some rj →
        ∀ c ∈ ri.eliminated, c ∉ rj.eliminated ∧ c ∉ rj.tallyKeys)
    ∧ (∀ r ∈ (tabulateRCV ballots candidates).rounds, ∀ c ∈ r.eliminated, c ∈ candidates) := by
  constructor
  · intro i j ri rj hij hri hrj
    rw [tabulateRCV_rounds] at hri hrj
    obtain ⟨hi, hgi⟩ := List.getElem?_eq_some_iff.mp hri
    obtain ⟨hj, hgj⟩ := List.getElem?_eq_some_iff.mp hrj
    subst hgi
    subst hgj
    exact loopRounds_later ballots candidates.eraseDups.length candidates.eraseDups 1
      i j hi hj hij
  · intro r hr c hc
    rw [tabulateRCV_rounds] at hr
    obtain ⟨hk, he⟩ := loopRounds_keys ballots candidates.eraseDups.length
      candidates.eraseDups 1 r hr
    exact (mem_eraseDups_iff candidates c).mp (hk (he hc))

theorem claim10_elimination_permanent_witness :
    (0 < 1)
    ∧ ((tabulateRCV tieBallots ["A", "B", "C", "D"]).rounds[0]? = some tieRound1)
    ∧ (∀ c ∈ tieRound1.eliminated, c ∈ ["A", "B", "C", "D"])
    ∧ (∀ rj : Round, (tabulateRCV tieBallots ["A", "B", "C", "D"]).rounds[1]? = some rj →
        ∀ c ∈ tieRound1.eliminated, c ∉ rj.eliminated ∧ c ∉ rj.tallyKeys) :=
  ⟨Nat.zero_lt_one, by decide,
    fun c hc => (claim10_elimination_permanent tieBallots ["A", "B", "C", "D"]).2
      tieRound1 (by decide) c hc,
    fun rj hrj =>
      (claim10_elimination_permanent tieBallots ["A", "B", "C", "D"]).1 0 1 tieRound1 rj
        Nat.zero_lt_one (by decide) hrj⟩

end RcvReport
